import Mathlib

/-!
# Verification of the AlphaFold3 paper-algorithms core

Shallow embedding of `paper_algs/paper_algorithms.py` (the iterative
geometry-refinement core) together with theorems settling the frozen
specification claims.  Pure tensor arithmetic is embedded over `ℚ` where the
source computes with exact-representable operations, and over `ℝ` where the
source uses square roots, sigmoids or exponentials.  Torch tensors become
index functions; batched operations become explicit quantification over the
batch index.  The file is laid out as: all definitions first, then all
lemmas and theorems.
-/

open scoped BigOperators

/-! ## Definitions -/

/-! ### Weighted rigid alignment (Algorithm 28, `WeightedRigidAlign.forward`)

The SVD factors `U, V` of the weighted covariance matrix are produced by the
external `torch.svd`; they enter the embedding as arguments constrained to be
orthogonal, which is the guarantee SVD provides.  Everything after the SVD
call is transcribed from the source. -/

/-- Weighted centroid of a coordinate set:
`(coords * weights.unsqueeze(-1)).sum(dim=1) / weights.sum(dim=1, keepdim=True)`
for one batch element. -/
def weightedCentroid {n : ℕ} (coords : Fin n → Fin 3 → ℚ) (weights : Fin n → ℚ) :
    Fin 3 → ℚ :=
  fun i => (∑ l, weights l * coords l i) / (∑ l, weights l)

/-- Centered coordinates: `coords - centroid.unsqueeze(1)`. -/
def centerCoords {n : ℕ} (coords : Fin n → Fin 3 → ℚ) (weights : Fin n → ℚ) :
    Fin n → Fin 3 → ℚ :=
  fun l i => coords l i - weightedCentroid coords weights i

/-- Weighted covariance matrix
`torch.einsum('bni,bnj->bij', true_coords_centered * weights.unsqueeze(-1), pred_coords_centered)`. -/
def covMatrix {n : ℕ} (predCoords trueCoords : Fin n → Fin 3 → ℚ)
    (weights : Fin n → ℚ) : Matrix (Fin 3) (Fin 3) ℚ :=
  Matrix.of fun i j =>
    ∑ l, weights l * centerCoords trueCoords weights l i * centerCoords predCoords weights l j

/-- Sign flip of the last column of a 3×3 matrix: `V_fixed[det_mask, :, -1] *= -1`. -/
def flipLastCol (M : Matrix (Fin 3) (Fin 3) ℚ) : Matrix (Fin 3) (Fin 3) ℚ :=
  Matrix.of fun i j => if j = 2 then -(M i j) else M i j

/-- The rotation matrix `WeightedRigidAlign.forward` applies to the centred
predicted coordinates, as a function of the SVD factors:
`rot_matrix = einsum('bij,bjk->bik', U, V)`, and if `det < 0` the last column
of `V` is negated and the product recomputed. -/
def rigidAlignRotation (U V : Matrix (Fin 3) (Fin 3) ℚ) : Matrix (Fin 3) (Fin 3) ℚ :=
  if (U * V).det < 0 then U * flipLastCol V else U * V

/-- Rotation + translation application:
`aligned_coords = einsum('bni,bij->bnj', pred_coords_centered, rot_matrix) + true_centroid.unsqueeze(1)`. -/
def WeightedRigidAlign_forward {n : ℕ} (predCoords trueCoords : Fin n → Fin 3 → ℚ)
    (weights : Fin n → ℚ) (U V : Matrix (Fin 3) (Fin 3) ℚ) : Fin n → Fin 3 → ℚ :=
  fun l j =>
    (∑ i, centerCoords predCoords weights l i * rigidAlignRotation U V i j) +
      weightedCentroid trueCoords weights j

/-! ### Local window indexer (Algorithm 7, `AtomTransformer.forward`)

`l = arange(len)`, `c = subset_centres`, `mask_queries = |l - c| < n_queries/2`,
`mask_keys = |m - c| < n_keys/2`; a `(query, key)` pair is valid when some
centre admits both, and the additive bias is `0` at valid pairs and `-1e10`
elsewhere. -/

/-- Default subset centres of `AtomTransformer.__init__`:
`subset_centres = [15.5, 47.5, 79.5]`. -/
def subsetCentres : List ℚ := [31/2, 95/2, 159/2]

/-- `mask_queries = (l.view(-1, 1) - c).abs() < self.n_queries / 2`. -/
def maskQueries (nQueries l : ℕ) (c : ℚ) : Bool :=
  decide (|(l : ℚ) - c| < (nQueries : ℚ) / 2)

/-- `mask_keys = (m - c).abs() < self.n_keys / 2`. -/
def maskKeys (nKeys m : ℕ) (c : ℚ) : Bool :=
  decide (|(m : ℚ) - c| < (nKeys : ℚ) / 2)

/-- Size produced by broadcasting two tensor dimensions; `none` models the
torch `RuntimeError` raised when the sizes differ and neither is `1`. -/
def broadcastDim (a b : ℕ) : Option ℕ :=
  if a = b then some a
  else if a = 1 then some b
  else if b = 1 then some a
  else none

/-- The local-attention bias computation of `AtomTransformer.forward`
(lines 321–332), transcribed with torch broadcasting semantics.
`l.view(-1, 1)` has shape `(L, 1)` and `c = subset_centres.view(1, -1, 1)`
shape `(1, C, 1)`; right-aligned broadcasting of `l.view(-1, 1) - c` requires
`L = C`, `L = 1` or `C = 1` (else torch raises), and pairs position `i` with
centre `i` elementwise, replicating whichever side has size `1` — it does not
test every centre against every position.  `mask = mask_queries.unsqueeze(-1)
& mask_keys.unsqueeze(0)` has shape `(1, S, S, 1)`, and
`mask.any(dim=1, keepdim=True)` collapses the query-mask axis, so the bias
`beta_lm` is the single centre-indexed row `(1, 1, S, 1)`:
`beta[j] = 0` when some diagonal query-mask entry holds and
`|l[j] - c[j]| < n_keys/2`, else `-1e10`. -/
def AtomTransformer_forward_beta (centres : List ℚ) (nQueries nKeys L : ℕ) :
    Except String (List ℚ) :=
  match broadcastDim L centres.length with
  | none => Except.error "RuntimeError: the size of the arange tensor must match the size of subset_centres at non-singleton dimension 1"
  | some S =>
    let lidx : ℕ → ℕ := fun i => if L = 1 then 0 else i
    let cval : ℕ → ℚ := fun i => if centres.length = 1 then centres.headD 0 else centres.getD i 0
    let maskQ : ℕ → Bool := fun i => maskQueries nQueries (lidx i) (cval i)
    let maskK : ℕ → Bool := fun j => maskKeys nKeys (lidx j) (cval j)
    let anyQ : Bool := (List.range S).any maskQ
    Except.ok ((List.range S).map fun j => if anyQ && maskK j then (0 : ℚ) else -(10 ^ 10))

/-! ### Atom-to-token pooling (Algorithm 5 and the inline copy in `DiffusionModule.forward`)

Atom features are `ℕ → ℕ → ℚ` (atom index, channel), masks `ℕ → Bool`; window
`t` covers flat atoms `t*w + s` for `s < w` (einops `b (n w) da -> b n w da`). -/

/-- `relu` on rationals. -/
def reluQ (x : ℚ) : ℚ := max x 0

/-- `self.proj = Sequential(LinearNoBias(dim, dim_out), ReLU())` of
`AtomToTokenPooler`. -/
def poolerProj (dIn : ℕ) (W : ℕ → ℕ → ℚ) (atomFeats : ℕ → ℕ → ℚ) : ℕ → ℕ → ℚ :=
  fun l j => reluQ (∑ i ∈ Finset.range dIn, W j i * atomFeats l i)

/-- `AtomToTokenPooler.forward`: project, then masked-mean pool each window;
the `masked_fill(~windowed_atom_mask.unsqueeze(-1), 0.)` zeroes the *invalid*
atoms, the denominator is `windowed_atom_mask.float().sum(dim=-1)`. -/
def AtomToTokenPooler_forward (dIn w : ℕ) (W : ℕ → ℕ → ℚ)
    (atomFeats : ℕ → ℕ → ℚ) (atomMask : ℕ → Bool) : ℕ → ℕ → ℚ :=
  fun t j =>
    (∑ s ∈ Finset.range w,
        if atomMask (t * w + s) then poolerProj dIn W atomFeats (t * w + s) j else 0) /
      (∑ s ∈ Finset.range w, if atomMask (t * w + s) then (1 : ℚ) else 0)

/-- The inline pooling of `DiffusionModule.forward` (lines 884–894).  Note the
polarity of the fill: `masked_fill(windowed_atom_mask.unsqueeze(-1), 0.)`
zeroes the atoms whose mask bit is *true* (the valid ones) — there is no `~` —
while the denominator still counts the true bits. -/
def DiffusionModule_poolTokens (w : ℕ) (atomFeats : ℕ → ℕ → ℚ)
    (atomMask : ℕ → Bool) : ℕ → ℕ → ℚ :=
  fun t j =>
    (∑ s ∈ Finset.range w, if atomMask (t * w + s) then 0 else atomFeats (t * w + s) j) /
      (∑ s ∈ Finset.range w, if atomMask (t * w + s) then (1 : ℚ) else 0)

/-! ### `TriangleMultiplication.__init__` (Algorithms 12 and 13)

The constructor builds five `LinearNoBias` layers and then runs
`nn.init.constant_(gate.weight, 0.)` and `nn.init.constant_(gate.bias, 1.)`
for each of the three gates.  A `LinearNoBias` layer has `bias = None`, and
`nn.init.constant_` on `None` raises `AttributeError`; the embedding models
that failure with `Except`.  Fresh (randomly sampled) layer weights are passed
in as the argument `fresh`. -/

/-- A `torch.nn.Linear` layer over `ℚ`: the bias is `None` when constructed
with `bias=False`. -/
structure LinearLayerQ where
  weight : ℕ → ℕ → ℚ
  bias : Option (ℕ → ℚ)

/-- `LinearNoBias = partial(nn.Linear, bias=False)`. -/
def linearNoBiasQ (w : ℕ → ℕ → ℚ) : LinearLayerQ :=
  { weight := w, bias := none }

/-- `nn.init.constant_(layer.weight, v)`: the weight tensor always exists. -/
def initConstantWeight (layer : LinearLayerQ) (v : ℚ) : LinearLayerQ :=
  { layer with weight := fun _ _ => v }

/-- `nn.init.constant_(layer.bias, v)`: raises `AttributeError` when the layer
was built with `bias=False` (its bias is `None`). -/
def initConstantBias (layer : LinearLayerQ) (v : ℚ) : Except String LinearLayerQ :=
  match layer.bias with
  | none => Except.error "AttributeError: fill_ called on a None bias"
  | some _ => Except.ok { layer with bias := some fun _ => v }

/-- The parameters `TriangleMultiplication.__init__` would produce. -/
structure TriangleMultiplicationParams where
  leftProj : LinearLayerQ
  rightProj : LinearLayerQ
  leftGate : LinearLayerQ
  rightGate : LinearLayerQ
  outGate : LinearLayerQ
  toOut : LinearLayerQ

/-- `TriangleMultiplication.__init__`: builds the projections and gates, then
runs the identity-initialisation loop
`for gate in (left_gate, right_gate, out_gate): constant_(weight, 0.); constant_(bias, 1.)`. -/
def TriangleMultiplication_init (fresh : ℕ → ℕ → ℕ → ℚ) :
    Except String TriangleMultiplicationParams := do
  let leftProj := linearNoBiasQ (fresh 0)
  let rightProj := linearNoBiasQ (fresh 1)
  let leftGate0 := linearNoBiasQ (fresh 2)
  let rightGate0 := linearNoBiasQ (fresh 3)
  let outGate0 := linearNoBiasQ (fresh 4)
  let leftGate ← initConstantBias (initConstantWeight leftGate0 0) 1
  let rightGate ← initConstantBias (initConstantWeight rightGate0 0) 1
  let outGate ← initConstantBias (initConstantWeight outGate0 0) 1
  let toOut := linearNoBiasQ (fresh 5)
  pure ⟨leftProj, rightProj, leftGate, rightGate, outGate, toOut⟩

/-! ### `DiffusionModule.forward` dataflow (Algorithm 20)

The claim about this method concerns which intermediate feeds which submodule,
so the submodules themselves (conditioners, transformers, norms, projections —
each a learned module whose internals are embedded elsewhere in this file or
out of scope) enter as function arguments over an arbitrary tensor carrier `T`
with addition, and the method body is transcribed statement by statement.
`poolTokens` abstracts the inline masked-mean pooling whose concrete embedding
is `DiffusionModule_poolTokens` above. -/

def DiffusionModule_forward {T : Type} [Add T]
    (singleConditioner : T → T → T → T)
    (pairwiseConditioner : T → T → T)
    (atomPosToAtomFeatCond : T → T)
    (atomEncoder : T → T → T → T → T)
    (poolTokens : T → T → T)
    (condTokensWithCondSingle : T → T)
    (tokenTransformer : T → T → T → T → T)
    (attendedTokenNorm : T → T)
    (tokensToAtomDecoderInputCond : T → T)
    (broadcastToAtoms : T → T)
    (atomDecoder : T → T → T → T → T)
    (atomFeatToAtomPosUpdate : T → T)
    (noisedAtomPos atomFeats atompairFeats atomMask mask
      times singleTrunkRepr singleInputsRepr pairwiseTrunk pairwiseRelPosFeats : T) : T :=
  let conditionedSingleRepr := singleConditioner times singleTrunkRepr singleInputsRepr
  let conditionedPairwiseRepr := pairwiseConditioner pairwiseTrunk pairwiseRelPosFeats
  let atomFeats1 := atomPosToAtomFeatCond noisedAtomPos + atomFeats
  let atomFeats2 := atomEncoder atomFeats1 atomMask atomFeats1 atompairFeats
  let atomFeatsSkip := atomFeats2
  let tokens0 := poolTokens atomFeats2 atomMask
  let tokens1 := condTokensWithCondSingle conditionedSingleRepr + tokens0
  -- `self.token_transformer(tokens, ...)` : the return value is not assigned
  let _discarded := tokenTransformer tokens1 mask conditionedSingleRepr conditionedPairwiseRepr
  let tokens2 := attendedTokenNorm tokens1
  let atomDecoderInput := tokensToAtomDecoderInputCond tokens2
  let atomDecoderInput2 := broadcastToAtoms atomDecoderInput
  -- `atom_decoder_input = atom_decoder_input + atom_feats_skip`
  let _atomDecoderInput3 := atomDecoderInput2 + atomFeatsSkip
  -- `atom_feats = self.atom_decoder(atom_feats, ...)` : the first argument is
  -- the encoder output still bound to `atom_feats`, not `atom_decoder_input`
  let atomFeats3 := atomDecoder atomFeats2 atomMask atomFeats2 atompairFeats
  atomFeatToAtomPosUpdate atomFeats3

/-! ### Smooth LDDT loss (Algorithm 27, `SmoothLDDTLoss.forward`)

Coordinates are `Fin B → Fin n → Fin 3 → ℝ` (batch, atom, axis); nucleotide
masks are `Fin B → Fin n → Bool`.  `torch.cdist` is the Euclidean pairwise
distance; the four sigmoids, the inclusion radius, the diagonal exclusion, the
count clamp and the final `1 - mean` are transcribed from the source. -/

/-- `torch.sigmoid`. -/
noncomputable def sigmoid (x : ℝ) : ℝ := 1 / (1 + Real.exp (-x))

/-- `torch.cdist(coords, coords)` entry `(b, i, j)`. -/
noncomputable def cdist {B n : ℕ} (coords : Fin B → Fin n → Fin 3 → ℝ)
    (b : Fin B) (i j : Fin n) : ℝ :=
  Real.sqrt (∑ k, (coords b i k - coords b j k) ^ 2)

/-- `dist_diff = |true_dists - pred_dists|`. -/
noncomputable def distDiff {B n : ℕ} (predCoords trueCoords : Fin B → Fin n → Fin 3 → ℝ)
    (b : Fin B) (i j : Fin n) : ℝ :=
  |cdist trueCoords b i j - cdist predCoords b i j|

/-- The four-threshold smooth step
`eps = (sigmoid(0.5 - d) + sigmoid(1.0 - d) + sigmoid(2.0 - d) + sigmoid(4.0 - d)) / 4`. -/
noncomputable def epsScore {B n : ℕ} (predCoords trueCoords : Fin B → Fin n → Fin 3 → ℝ)
    (b : Fin B) (i j : Fin n) : ℝ :=
  (sigmoid (0.5 - distDiff predCoords trueCoords b i j) +
   sigmoid (1.0 - distDiff predCoords trueCoords b i j) +
   sigmoid (2.0 - distDiff predCoords trueCoords b i j) +
   sigmoid (4.0 - distDiff predCoords trueCoords b i j)) / 4

/-- `is_nucleotide = is_dna | is_rna`. -/
def isNucleotide {B n : ℕ} (isDna isRna : Fin B → Fin n → Bool) (b : Fin B) (i : Fin n) : Bool :=
  isDna b i || isRna b i

/-- The pair-inclusion mask: bespoke inclusion radius (`nucleic_acid_cutoff`
for nucleotide pairs, `other_cutoff` otherwise) and exclusion of the diagonal:
`mask = logical_and(inclusion_radius, ~eye(n))`. -/
noncomputable def pairMask {B n : ℕ} (trueCoords : Fin B → Fin n → Fin 3 → ℝ)
    (isDna isRna : Fin B → Fin n → Bool) (nucCutoff otherCutoff : ℝ)
    (b : Fin B) (i j : Fin n) : Prop :=
  (if isNucleotide isDna isRna b i && isNucleotide isDna isRna b j
    then cdist trueCoords b i j < nucCutoff
    else cdist trueCoords b i j < otherCutoff) ∧ i ≠ j

open Classical in
/-- `lddt_count = mask.sum(dim=(-1, -2))` for one batch element. -/
noncomputable def lddtCount {B n : ℕ} (trueCoords : Fin B → Fin n → Fin 3 → ℝ)
    (isDna isRna : Fin B → Fin n → Bool) (nucCutoff otherCutoff : ℝ) (b : Fin B) : ℕ :=
  ∑ i, ∑ j, if pairMask trueCoords isDna isRna nucCutoff otherCutoff b i j then 1 else 0

open Classical in
/-- `lddt_sum = (eps * mask).sum(dim=(-1, -2))` for one batch element. -/
noncomputable def lddtSum {B n : ℕ} (predCoords trueCoords : Fin B → Fin n → Fin 3 → ℝ)
    (isDna isRna : Fin B → Fin n → Bool) (nucCutoff otherCutoff : ℝ) (b : Fin B) : ℝ :=
  ∑ i, ∑ j, if pairMask trueCoords isDna isRna nucCutoff otherCutoff b i j
    then epsScore predCoords trueCoords b i j else 0

/-- The clamped pair count `lddt_count.clamp(min=1)`, the denominator of the
per-batch mean. -/
noncomputable def lddtDen {B n : ℕ} (trueCoords : Fin B → Fin n → Fin 3 → ℝ)
    (isDna isRna : Fin B → Fin n → Bool) (nucCutoff otherCutoff : ℝ) (b : Fin B) : ℕ :=
  max (lddtCount trueCoords isDna isRna nucCutoff otherCutoff b) 1

/-- `lddt = lddt_sum / lddt_count.clamp(min=1)` for one batch element. -/
noncomputable def lddtBatch {B n : ℕ} (predCoords trueCoords : Fin B → Fin n → Fin 3 → ℝ)
    (isDna isRna : Fin B → Fin n → Bool) (nucCutoff otherCutoff : ℝ) (b : Fin B) : ℝ :=
  lddtSum predCoords trueCoords isDna isRna nucCutoff otherCutoff b /
    (lddtDen trueCoords isDna isRna nucCutoff otherCutoff b : ℝ)

/-- `SmoothLDDTLoss.forward`: `1 - lddt.mean()` over the batch. -/
noncomputable def SmoothLDDTLoss_forward {B n : ℕ}
    (predCoords trueCoords : Fin B → Fin n → Fin 3 → ℝ)
    (isDna isRna : Fin B → Fin n → Bool) (nucCutoff otherCutoff : ℝ) : ℝ :=
  1 - (∑ b, lddtBatch predCoords trueCoords isDna isRna nucCutoff otherCutoff b) / B

/-- The value of the four-threshold smooth step at distance difference `0`. -/
noncomputable def smoothStepAtZero : ℝ :=
  (sigmoid 0.5 + sigmoid 1.0 + sigmoid 2.0 + sigmoid 4.0) / 4

/-! ### Frame algebra (Algorithms 29 and 30)

`expressCoordinatesInFrame(x, phi)` with `phi = (a, b, c)`:
`w1 = (a-b)/‖a-b‖`, `w2 = (c-b)/‖c-b‖`, `e1 = (w1+w2)/‖w1+w2‖`,
`e2 = (w2-w1)/‖w2-w1‖`, `e3 = e1 * e2` (the source's `*` is the elementwise
tensor product), then the projections `(d·e1, d·e2, d·e3)` of `d = x - b`.
`computeAlignmentError` takes the per-axis square root of the squared
difference plus `eps`. -/

/-- A 3-vector of reals. -/
abbrev V3 := Fin 3 → ℝ

/-- Euclidean inner product on `V3`. -/
noncomputable def dotV (u v : V3) : ℝ := ∑ k, u k * v k

/-- `torch.norm`. -/
noncomputable def normV (v : V3) : ℝ := Real.sqrt (dotV v v)

/-- Vector difference. -/
noncomputable def subV (u v : V3) : V3 := fun k => u k - v k

/-- Normalisation `v / torch.norm(v)`. -/
noncomputable def unitV (v : V3) : V3 := fun k => v k / normV v

/-- `w1 = (a - b) / torch.norm(a - b)`. -/
noncomputable def frameW1 (a b : V3) : V3 := unitV (subV a b)

/-- `w2 = (c - b) / torch.norm(c - b)`. -/
noncomputable def frameW2 (b c : V3) : V3 := unitV (subV c b)

/-- `e1 = (w1 + w2) / torch.norm(w1 + w2)`. -/
noncomputable def frameE1 (a b c : V3) : V3 :=
  unitV (fun k => frameW1 a b k + frameW2 b c k)

/-- `e2 = (w2 - w1) / torch.norm(w2 - w1)`. -/
noncomputable def frameE2 (a b c : V3) : V3 :=
  unitV (fun k => frameW2 b c k - frameW1 a b k)

/-- `e3 = e1 * e2`: the source's elementwise product (where the paper and the
spec take the cross product). -/
noncomputable def frameE3 (a b c : V3) : V3 :=
  fun k => frameE1 a b c k * frameE2 a b c k

/-- `expressCoordinatesInFrame`: project `d = x - b` onto `(e1, e2, e3)`. -/
noncomputable def expressCoordinatesInFrame (x a b c : V3) : V3 :=
  ![dotV (subV x b) (frameE1 a b c),
    dotV (subV x b) (frameE2 a b c),
    dotV (subV x b) (frameE3 a b c)]

/-- `computeAlignmentError`:
`sqrt(square(x_bar - x_bar_true) + eps)` per axis. -/
noncomputable def computeAlignmentError (x xTrue a b c aT bT cT : V3) (eps : ℝ) : V3 :=
  fun k => Real.sqrt
    ((expressCoordinatesInFrame x a b c k - expressCoordinatesInFrame xTrue aT bT cT k) ^ 2 + eps)

/-- The cross product, the third axis the spec prescribes. -/
noncomputable def crossV (u v : V3) : V3 :=
  ![u 1 * v 2 - u 2 * v 1, u 2 * v 0 - u 0 * v 2, u 0 * v 1 - u 1 * v 0]

/-- A concrete proper rotation (orthogonal, determinant `1`) used to probe the
rigid-motion invariance of `computeAlignmentError`. -/
noncomputable def RmatC7 : Matrix (Fin 3) (Fin 3) ℝ :=
  !![3/5, -(4/5), 0; 4/5, 3/5, 0; 0, 0, 1]

/-- Application of `RmatC7` to a vector. -/
noncomputable def RapplyC7 (v : V3) : V3 := RmatC7.mulVec v

/-! ### Pair-biased attention (Algorithm 24, `AttentionPairBias.forward`)

The primary signal is a rank-2 tensor (token, channel) with explicit shape;
the pairwise representation is rank-3 (token, token, channel).  The generic
`Attention` primitive is imported by the source from an external module
(`from attention import Attention`) that is not part of this repository's
sources, so it is modelled from the spec below.  `forward` returns the
attention output together with the pairwise tensor as it stands after the
call: every operation the method applies to `pairwise_repr` (layer norm,
linear projection, rearrange, addition) is out-of-place, so the caller's
tensor comes back unmodified. -/

/-- A rank-2 real tensor with explicit shape. -/
structure Tensor2 where
  rows : ℕ
  cols : ℕ
  entry : ℕ → ℕ → ℝ

/-- A rank-3 real tensor with explicit shape. -/
structure Tensor3 where
  dim1 : ℕ
  dim2 : ℕ
  chans : ℕ
  entry : ℕ → ℕ → ℕ → ℝ

/-- `nn.LayerNorm` over channels `0 .. c-1` with affine weight `gamma`,
bias `beta` and the torch default `eps = 1e-5`. -/
noncomputable def layerNormVec (c : ℕ) (gamma beta : ℕ → ℝ) (v : ℕ → ℝ) : ℕ → ℝ :=
  fun k =>
    gamma k * ((v k - (∑ i ∈ Finset.range c, v i) / c) /
      Real.sqrt ((∑ i ∈ Finset.range c,
        (v i - (∑ i2 ∈ Finset.range c, v i2) / c) ^ 2) / c + 1e-5)) + beta k

/-- Softmax weight of key `j` among keys `0 .. n-1`. -/
noncomputable def softmaxWeight (f : ℕ → ℝ) (n j : ℕ) : ℝ :=
  Real.exp (f j) / ∑ j2 ∈ Finset.range n, Real.exp (f j2)

/-- Per-head linear projection of a row of the primary signal. -/
noncomputable def attnProj (W : ℕ → ℕ → ℝ) (x : Tensor2) (i k : ℕ) : ℝ :=
  ∑ c ∈ Finset.range x.cols, W k c * x.entry i c

/-- Modelled from the spec: the pre-softmax logits of the external attention
primitive — scaled query·key plus the supplied additive bias. -/
noncomputable def attnLogits (dk : ℕ) (Wq Wk : ℕ → ℕ → ℕ → ℝ) (x : Tensor2)
    (bias : ℕ → ℕ → ℕ → ℝ) (h i j : ℕ) : ℝ :=
  (∑ k ∈ Finset.range dk, attnProj (Wq h) x i k * attnProj (Wk h) x j k) /
    Real.sqrt dk + bias h i j

/-- Modelled from the spec: the generic scaled-dot-product attention primitive
(`from attention import Attention`, consumed as a capability, not part of this
repository's sources): multi-head scaled attention whose logits receive the
additive bias, producing an output with one slot per query of the primary
signal and the primary signal's channel width. -/
noncomputable def Attention_forward (heads dk dv : ℕ)
    (Wq Wk Wv Wo : ℕ → ℕ → ℕ → ℝ) (x : Tensor2) (bias : ℕ → ℕ → ℕ → ℝ) : Tensor2 :=
  { rows := x.rows
    cols := x.cols
    entry := fun i d =>
      ∑ h ∈ Finset.range heads, ∑ e ∈ Finset.range dv,
        Wo h e d * ∑ j ∈ Finset.range x.rows,
          softmaxWeight (attnLogits dk Wq Wk x bias h i) x.rows j * attnProj (Wv h) x j e }

/-- `AttentionPairBias.to_attn_bias`: `LayerNorm(dim_pair)`, then the
zero-initialised `LinearNoBias(dim_pair, heads)`, then the rearrangement
`... i j h -> ... h i j`. -/
noncomputable def AttentionPairBias_toAttnBias (dimPair : ℕ) (gamma beta : ℕ → ℝ)
    (Wb : ℕ → ℕ → ℝ) (pair : Tensor3) : ℕ → ℕ → ℕ → ℝ :=
  fun h i j =>
    ∑ c ∈ Finset.range dimPair, Wb h c * layerNormVec dimPair gamma beta (pair.entry i j) c

/-- `AttentionPairBias.forward`: the optional external bias is broadcast over
heads (`attn_bias.unsqueeze(1)`) or replaced by `0.0`, added to the projected
pairwise bias, and the attention primitive runs on the primary signal; the
second component of the result is the pairwise tensor after the call. -/
noncomputable def AttentionPairBias_forward (heads dk dv dimPair : ℕ)
    (Wq Wk Wv Wo : ℕ → ℕ → ℕ → ℝ) (gamma beta : ℕ → ℝ) (Wb : ℕ → ℕ → ℝ)
    (singleRepr : Tensor2) (pairwiseRepr : Tensor3)
    (attnBias : Option (ℕ → ℕ → ℝ)) : Tensor2 × Tensor3 :=
  let suppliedBias : ℕ → ℕ → ℕ → ℝ := fun _h i j =>
    match attnBias with
    | some f => f i j
    | none => 0
  let bias : ℕ → ℕ → ℕ → ℝ := fun h i j =>
    AttentionPairBias_toAttnBias dimPair gamma beta Wb pairwiseRepr h i j + suppliedBias h i j
  (Attention_forward heads dk dv Wq Wk Wv Wo singleRepr bias, pairwiseRepr)

/-! ### Concrete example inputs used by counterexamples and witnesses -/

/-- Example atom features (channel-independent): atom 0 carries value 3, every
other atom carries value 5. -/
def exampleAtomFeats : ℕ → ℕ → ℚ := fun l _ => if l = 0 then 3 else 5

/-- Example atom mask: only atom 0 is valid. -/
def exampleAtomMask : ℕ → Bool := fun l => l == 0

/-- Example coordinates for the LDDT theorems: one batch element, two atoms at
`(0,0,0)` and `(1,0,0)`. -/
noncomputable def exampleCoords : Fin 1 → Fin 2 → Fin 3 → ℝ :=
  fun _ i k => if i.val = 1 ∧ k.val = 0 then 1 else 0

/-- All-false nucleotide mask for the two-atom example. -/
def exampleDnaMask : Fin 1 → Fin 2 → Bool := fun _ _ => false

/-! ## Theorems -/

/-! ### C1: determinant of the corrected rotation -/

theorem flipLastCol_det (M : Matrix (Fin 3) (Fin 3) ℚ) :
    (flipLastCol M).det = -M.det := by
  simp [flipLastCol, Matrix.det_fin_three]
  ring

theorem det_sq_one_of_orthogonal (M : Matrix (Fin 3) (Fin 3) ℚ)
    (h : M.transpose * M = 1) : M.det = 1 ∨ M.det = -1 := by
  have h2 : M.det * M.det = 1 := by
    have := congrArg Matrix.det h
    rwa [Matrix.det_mul, Matrix.det_transpose, Matrix.det_one] at this
  exact mul_self_eq_one_iff.mp h2

/-- CLAIM C1: for every SVD factorisation (orthogonal `U`, `V`) of the weighted
covariance matrix, the rotation matrix that `WeightedRigidAlign.forward`
applies to the centred predicted coordinates has determinant `+1`: whenever
`det (U·V)` is negative the last column of `V` is sign-flipped and the rotation
recomputed, so the applied rotation is always proper (never a reflection). -/
theorem rigidAlignRotation_det_one (U V : Matrix (Fin 3) (Fin 3) ℚ)
    (hU : U.transpose * U = 1) (hV : V.transpose * V = 1) :
    (rigidAlignRotation U V).det = 1 := by
  have hUV : (U * V).det = 1 ∨ (U * V).det = -1 := by
    rcases det_sq_one_of_orthogonal U hU with h1 | h1 <;>
    rcases det_sq_one_of_orthogonal V hV with h2 | h2 <;>
      simp [Matrix.det_mul, h1, h2]
  unfold rigidAlignRotation
  by_cases hneg : (U * V).det < 0
  · have hm1 : (U * V).det = -1 := by
      rcases hUV with h | h
      · rw [h] at hneg; norm_num at hneg
      · exact h
    rw [if_pos hneg]
    rw [Matrix.det_mul, flipLastCol_det, mul_neg, ← Matrix.det_mul, hm1]
    norm_num
  · have h1 : (U * V).det = 1 := by
      rcases hUV with h | h
      · exact h
      · rw [h] at hneg; norm_num at hneg
    rw [if_neg hneg]
    exact h1

/-- Witness for C1 at a concrete input: `U = 1` and `V = diag (1, 1, -1)` are
orthogonal, `det (U·V) = -1 < 0` exercises the sign-flip branch, and the
corrected rotation has determinant `1`. -/
theorem rigidAlignRotation_det_one_witness :
    ((1 : Matrix (Fin 3) (Fin 3) ℚ).transpose * 1 = 1 ∧
      (!![1, 0, 0; 0, 1, 0; 0, 0, -1] : Matrix (Fin 3) (Fin 3) ℚ).transpose *
        !![1, 0, 0; 0, 1, 0; 0, 0, -1] = 1) ∧
    (rigidAlignRotation 1 !![1, 0, 0; 0, 1, 0; 0, 0, -1]).det = 1 := by
  have hVT : (!![1, 0, 0; 0, 1, 0; 0, 0, -1] : Matrix (Fin 3) (Fin 3) ℚ).transpose =
      !![1, 0, 0; 0, 1, 0; 0, 0, -1] := by
    ext i j
    fin_cases i <;> fin_cases j <;> rfl
  have hV : (!![1, 0, 0; 0, 1, 0; 0, 0, -1] : Matrix (Fin 3) (Fin 3) ℚ).transpose *
      !![1, 0, 0; 0, 1, 0; 0, 0, -1] = 1 := by
    rw [hVT, Matrix.mul_fin_three, Matrix.one_fin_three]
    norm_num
  refine ⟨⟨by simp, hV⟩, ?_⟩
  exact rigidAlignRotation_det_one 1 !![1, 0, 0; 0, 1, 0; 0, 0, -1] (by simp) hV

/-! ### C5: the local attention bias of `AtomTransformer.forward` -/

theorem maskQueries_zero_c1 : maskQueries 32 0 (31/2) = true := by
  rw [maskQueries, decide_eq_true_eq, abs_lt]
  constructor <;> norm_num

theorem maskKeys_zero_c1 : maskKeys 128 0 (31/2) = true := by
  rw [maskKeys, decide_eq_true_eq, abs_lt]
  constructor <;> norm_num

theorem maskKeys_one_c2 : maskKeys 128 1 (95/2) = true := by
  rw [maskKeys, decide_eq_true_eq, abs_lt]
  constructor <;> norm_num

theorem maskKeys_two_c3 : maskKeys 128 2 (159/2) = false := by
  rw [maskKeys, decide_eq_false_iff_not, abs_lt]
  rintro ⟨h1, h2⟩
  norm_num at h1

/-- CLAIM C5 (code bug): `AtomTransformer.forward` does not compute a
per-query windowed bias at all.  At input length `97` the broadcast of the
`(97, 1)` arange tensor against the `(1, 3, 1)` centre tensor raises a
`RuntimeError` — no bias row exists to contain a `0` entry (the same holds for
every length other than `1` and `3`).  At length `3`, one of the two lengths
that run, the bias is the single centre-indexed row `[0, 0, -1e10]` broadcast
to every query: its last entry is `-1e10` for every query, and it pairs centre
`i` with position `i` rather than testing every centre per position, so the
claimed per-query valid-key guarantee is not what the program computes. -/
theorem AtomTransformer_forward_beta_counterexample :
    AtomTransformer_forward_beta subsetCentres 32 128 97 =
      Except.error "RuntimeError: the size of the arange tensor must match the size of subset_centres at non-singleton dimension 1" ∧
    AtomTransformer_forward_beta subsetCentres 32 128 3 =
      Except.ok [0, 0, -(10 ^ 10)] := by
  constructor
  · rfl
  · have hr : List.range 3 = [0, 1, 2] := rfl
    have hlen : subsetCentres.length = 3 := rfl
    unfold AtomTransformer_forward_beta
    rw [hlen]
    norm_num [broadcastDim, hr, List.any_cons, List.any_nil, List.map_cons, List.map_nil,
      subsetCentres, List.getD_cons_zero, List.getD_cons_succ,
      maskQueries_zero_c1, maskKeys_zero_c1, maskKeys_one_c2, maskKeys_two_c3]

/-! ### C3: masked mean pooling polarity -/

/-- CLAIM C3 (code bug): with window width `2`, atom 0 valid with projected
feature `3` and atom 1 masked out with feature `5`, `AtomToTokenPooler.forward`
pools to the single valid atom's projected feature `3` as the claim demands,
but the inline pooling of `DiffusionModule.forward` — whose `masked_fill` is
missing the `~` — zeroes the valid atom and returns the masked atom's feature
`5` instead. -/
theorem DiffusionModule_poolTokens_inverted_mask :
    DiffusionModule_poolTokens 2 exampleAtomFeats exampleAtomMask 0 0 = 5 ∧
    AtomToTokenPooler_forward 1 2 (fun _ _ => 1) exampleAtomFeats exampleAtomMask 0 0 = 3 ∧
    (5 : ℚ) ≠ 3 := by
  refine ⟨?_, ?_, by norm_num⟩
  · norm_num [DiffusionModule_poolTokens, exampleAtomFeats, exampleAtomMask,
      Finset.sum_range_succ]
  · norm_num [AtomToTokenPooler_forward, poolerProj, reluQ, exampleAtomFeats,
      exampleAtomMask, Finset.sum_range_succ]

/-! ### C8: `TriangleMultiplication.__init__` gate initialisation -/

/-- CLAIM C8 (code bug): constructing a `TriangleMultiplication` block never
succeeds: the three gates are `LinearNoBias` layers, so their bias is `None`
and the identity-initialisation loop's `nn.init.constant_(gate.bias, 1.)`
raises `AttributeError` for every dimension and every sampled weight. -/
theorem TriangleMultiplication_init_raises (fresh : ℕ → ℕ → ℕ → ℚ) :
    TriangleMultiplication_init fresh =
      Except.error "AttributeError: fill_ called on a None bias" := rfl

/-! ### C2: `DiffusionModule.forward` token-path dataflow -/

/-- CLAIM C2 (code bug): the position update computed by
`DiffusionModule.forward` is unchanged when the single/pairwise conditioners,
the pooling, the token-projection, the token-level diffusion transformer, the
token norm, the decoder-input projection and the token→atom broadcast are all
replaced by arbitrary other functions: the token transformer's output is
discarded (`self.token_transformer(tokens, ...)` is never assigned) and the
atom decoder consumes the encoder output `atom_feats`, not
`atom_decoder_input`, so the broadcast features are not the transformer output
and the decoder does not run on the broadcast-plus-skip input. -/
theorem DiffusionModule_forward_ignores_token_path {T : Type} [Add T]
    (singleConditioner singleConditioner2 : T → T → T → T)
    (pairwiseConditioner pairwiseConditioner2 : T → T → T)
    (atomPosToAtomFeatCond : T → T)
    (atomEncoder : T → T → T → T → T)
    (poolTokens poolTokens2 : T → T → T)
    (condTokens condTokens2 : T → T)
    (tokenTransformer tokenTransformer2 : T → T → T → T → T)
    (attendedTokenNorm attendedTokenNorm2 : T → T)
    (toDecoderInputCond toDecoderInputCond2 : T → T)
    (broadcastToAtoms broadcastToAtoms2 : T → T)
    (atomDecoder : T → T → T → T → T)
    (toPosUpdate : T → T)
    (noisedAtomPos atomFeats atompairFeats atomMask mask times s1 s2 pt pr : T) :
    DiffusionModule_forward singleConditioner pairwiseConditioner atomPosToAtomFeatCond
        atomEncoder poolTokens condTokens tokenTransformer attendedTokenNorm
        toDecoderInputCond broadcastToAtoms atomDecoder toPosUpdate
        noisedAtomPos atomFeats atompairFeats atomMask mask times s1 s2 pt pr =
      DiffusionModule_forward singleConditioner2 pairwiseConditioner2 atomPosToAtomFeatCond
        atomEncoder poolTokens2 condTokens2 tokenTransformer2 attendedTokenNorm2
        toDecoderInputCond2 broadcastToAtoms2 atomDecoder toPosUpdate
        noisedAtomPos atomFeats atompairFeats atomMask mask times s1 s2 pt pr := rfl

/-! ### C4 and C9: the smooth LDDT loss -/

theorem sigmoid_pos (x : ℝ) : 0 < sigmoid x := by
  unfold sigmoid
  positivity

theorem sigmoid_lt_one (x : ℝ) : sigmoid x < 1 := by
  rw [sigmoid, div_lt_one (by positivity)]
  linarith [Real.exp_pos (-x)]

theorem epsScore_nonneg {B n : ℕ} (p t : Fin B → Fin n → Fin 3 → ℝ)
    (b : Fin B) (i j : Fin n) : 0 ≤ epsScore p t b i j := by
  unfold epsScore
  have h1 := sigmoid_pos (0.5 - distDiff p t b i j)
  have h2 := sigmoid_pos (1.0 - distDiff p t b i j)
  have h3 := sigmoid_pos (2.0 - distDiff p t b i j)
  have h4 := sigmoid_pos (4.0 - distDiff p t b i j)
  linarith

theorem epsScore_le_one {B n : ℕ} (p t : Fin B → Fin n → Fin 3 → ℝ)
    (b : Fin B) (i j : Fin n) : epsScore p t b i j ≤ 1 := by
  unfold epsScore
  have h1 := sigmoid_lt_one (0.5 - distDiff p t b i j)
  have h2 := sigmoid_lt_one (1.0 - distDiff p t b i j)
  have h3 := sigmoid_lt_one (2.0 - distDiff p t b i j)
  have h4 := sigmoid_lt_one (4.0 - distDiff p t b i j)
  linarith

theorem smoothStepAtZero_lt_one : smoothStepAtZero < 1 := by
  unfold smoothStepAtZero
  have h1 := sigmoid_lt_one 0.5
  have h2 := sigmoid_lt_one 1.0
  have h3 := sigmoid_lt_one 2.0
  have h4 := sigmoid_lt_one 4.0
  linarith

theorem distDiff_self {B n : ℕ} (x : Fin B → Fin n → Fin 3 → ℝ)
    (b : Fin B) (i j : Fin n) : distDiff x x b i j = 0 := by
  unfold distDiff
  rw [sub_self, abs_zero]

theorem epsScore_self {B n : ℕ} (x : Fin B → Fin n → Fin 3 → ℝ)
    (b : Fin B) (i j : Fin n) : epsScore x x b i j = smoothStepAtZero := by
  unfold epsScore smoothStepAtZero
  rw [distDiff_self]
  norm_num

theorem smoothLDDT_identical {B n : ℕ} (x : Fin B → Fin n → Fin 3 → ℝ)
    (isDna isRna : Fin B → Fin n → Bool) (nc oc : ℝ) (hB : 0 < B)
    (hcount : ∀ b, 1 ≤ lddtCount x isDna isRna nc oc b) :
    SmoothLDDTLoss_forward x x isDna isRna nc oc = 1 - smoothStepAtZero := by
  have hb : ∀ b, lddtBatch x x isDna isRna nc oc b = smoothStepAtZero := by
    intro b
    have hc0 : (lddtCount x isDna isRna nc oc b : ℝ) ≠ 0 := by
      have h := hcount b
      have hne : lddtCount x isDna isRna nc oc b ≠ 0 := by omega
      exact_mod_cast hne
    have hden : lddtDen x isDna isRna nc oc b = lddtCount x isDna isRna nc oc b := by
      unfold lddtDen
      exact max_eq_left (hcount b)
    have hsum : lddtSum x x isDna isRna nc oc b
        = smoothStepAtZero * (lddtCount x isDna isRna nc oc b : ℝ) := by
      unfold lddtSum lddtCount
      push_cast
      rw [Finset.mul_sum]
      refine Finset.sum_congr rfl fun i _ => ?_
      rw [Finset.mul_sum]
      refine Finset.sum_congr rfl fun j _ => ?_
      by_cases h : pairMask x isDna isRna nc oc b i j
      · rw [if_pos h, if_pos h, epsScore_self, mul_one]
      · rw [if_neg h, if_neg h, mul_zero]
    unfold lddtBatch
    rw [hsum, hden, mul_div_assoc, div_self hc0, mul_one]
  unfold SmoothLDDTLoss_forward
  have hsum2 : (∑ b, lddtBatch x x isDna isRna nc oc b) = B * smoothStepAtZero := by
    rw [Finset.sum_congr rfl fun b _ => hb b]
    simp [Finset.sum_const, Finset.card_univ, nsmul_eq_mul]
  have hBne : (B : ℝ) ≠ 0 := by exact_mod_cast hB.ne'
  rw [hsum2, mul_comm, mul_div_assoc, div_self hBne, mul_one]

theorem exampleCoords_cdist (b : Fin 1) : cdist exampleCoords b 0 1 = 1 := by
  unfold cdist exampleCoords
  rw [Fin.sum_univ_three]
  norm_num

theorem examplePairMask (b : Fin 1) :
    pairMask exampleCoords exampleDnaMask exampleDnaMask 30 15 b 0 1 := by
  unfold pairMask isNucleotide exampleDnaMask
  refine ⟨?_, by decide⟩
  rw [exampleCoords_cdist b]
  norm_num

open Classical in
theorem exampleCount_ge_one (b : Fin 1) :
    1 ≤ lddtCount exampleCoords exampleDnaMask exampleDnaMask 30 15 b := by
  unfold lddtCount
  have h01 : (if pairMask exampleCoords exampleDnaMask exampleDnaMask 30 15 b 0 1
      then (1 : ℕ) else 0) = 1 := if_pos (examplePairMask b)
  have hinner :
      1 ≤ ∑ j : Fin 2, if pairMask exampleCoords exampleDnaMask exampleDnaMask 30 15 b 0 j
        then (1 : ℕ) else 0 := by
    have h := Finset.single_le_sum
      (f := fun j : Fin 2 =>
        if pairMask exampleCoords exampleDnaMask exampleDnaMask 30 15 b 0 j then (1 : ℕ) else 0)
      (fun j _ => Nat.zero_le _) (Finset.mem_univ 1)
    simp only at h
    rw [h01] at h
    exact h
  have houter := Finset.single_le_sum
    (f := fun i : Fin 2 =>
      ∑ j : Fin 2, if pairMask exampleCoords exampleDnaMask exampleDnaMask 30 15 b i j
        then (1 : ℕ) else 0)
    (fun i _ => Nat.zero_le _) (Finset.mem_univ 0)
  simp only at houter
  exact le_trans hinner houter

/-- CLAIM C4 counterexample: predicted and true coordinates identical (two
atoms, one included non-diagonal pair per batch element), yet the returned
loss is not `0`: the smooth-step score at distance difference `0` is
`(sigmoid 0.5 + sigmoid 1 + sigmoid 2 + sigmoid 4)/4 < 1`, not `1`. -/
theorem SmoothLDDTLoss_identical_counterexample :
    SmoothLDDTLoss_forward exampleCoords exampleCoords exampleDnaMask exampleDnaMask 30 15 ≠ 0 := by
  rw [smoothLDDT_identical exampleCoords exampleDnaMask exampleDnaMask 30 15
    Nat.zero_lt_one exampleCount_ge_one]
  have h := smoothStepAtZero_lt_one
  intro h0
  linarith

/-- CLAIM C4 amended: for identical predicted and true coordinates with at
least one included non-diagonal pair per batch element, every included pair's
smooth-step score equals the constant `smoothStepAtZero < 1`, so the returned
loss equals the positive constant `1 - smoothStepAtZero` — not `0`. -/
theorem SmoothLDDTLoss_perfect_match {B n : ℕ} (x : Fin B → Fin n → Fin 3 → ℝ)
    (isDna isRna : Fin B → Fin n → Bool) (hB : 0 < B)
    (hcount : ∀ b, 1 ≤ lddtCount x isDna isRna 30 15 b) :
    SmoothLDDTLoss_forward x x isDna isRna 30 15 = 1 - smoothStepAtZero ∧
    0 < 1 - smoothStepAtZero :=
  ⟨smoothLDDT_identical x isDna isRna 30 15 hB hcount,
    by linarith [smoothStepAtZero_lt_one]⟩

/-- Witness for the amended C4 at the concrete two-atom example. -/
theorem SmoothLDDTLoss_perfect_match_witness :
    (0 < 1 ∧ ∀ b : Fin 1, 1 ≤ lddtCount exampleCoords exampleDnaMask exampleDnaMask 30 15 b) ∧
    (SmoothLDDTLoss_forward exampleCoords exampleCoords exampleDnaMask exampleDnaMask 30 15 =
        1 - smoothStepAtZero ∧
      0 < 1 - smoothStepAtZero) :=
  ⟨⟨Nat.zero_lt_one, exampleCount_ge_one⟩,
    SmoothLDDTLoss_perfect_match exampleCoords exampleDnaMask exampleDnaMask
      Nat.zero_lt_one exampleCount_ge_one⟩

/-- CLAIM C9: for every input with a non-empty batch, the per-batch mean of
`SmoothLDDTLoss.forward` divides by the clamped pair count `lddtDen`, which is
always positive — even when a batch element has zero included non-diagonal
pairs — and the returned loss is a well-defined real confined to `[0, 1]`
(never a division by zero, no blow-up). -/
theorem SmoothLDDTLoss_den_pos_and_bounded {B n : ℕ}
    (pred trueC : Fin B → Fin n → Fin 3 → ℝ) (isDna isRna : Fin B → Fin n → Bool)
    (nc oc : ℝ) (hB : 0 < B) :
    (∀ b, 0 < lddtDen trueC isDna isRna nc oc b) ∧
    0 ≤ SmoothLDDTLoss_forward pred trueC isDna isRna nc oc ∧
    SmoothLDDTLoss_forward pred trueC isDna isRna nc oc ≤ 1 := by
  have hden : ∀ b, 0 < lddtDen trueC isDna isRna nc oc b := fun b =>
    lt_of_lt_of_le Nat.zero_lt_one (le_max_right _ 1)
  refine ⟨hden, ?_⟩
  have hbatch : ∀ b, 0 ≤ lddtBatch pred trueC isDna isRna nc oc b ∧
      lddtBatch pred trueC isDna isRna nc oc b ≤ 1 := by
    intro b
    have hdpos : (0 : ℝ) < (lddtDen trueC isDna isRna nc oc b : ℝ) := by
      exact_mod_cast hden b
    have hsumnn : 0 ≤ lddtSum pred trueC isDna isRna nc oc b := by
      unfold lddtSum
      refine Finset.sum_nonneg fun i _ => Finset.sum_nonneg fun j _ => ?_
      by_cases h : pairMask trueC isDna isRna nc oc b i j
      · rw [if_pos h]
        exact epsScore_nonneg pred trueC b i j
      · rw [if_neg h]
    have hsumle : lddtSum pred trueC isDna isRna nc oc b ≤
        (lddtCount trueC isDna isRna nc oc b : ℝ) := by
      unfold lddtSum lddtCount
      push_cast
      refine Finset.sum_le_sum fun i _ => Finset.sum_le_sum fun j _ => ?_
      by_cases h : pairMask trueC isDna isRna nc oc b i j
      · rw [if_pos h, if_pos h]
        exact epsScore_le_one pred trueC b i j
      · rw [if_neg h, if_neg h]
    have hcle : (lddtCount trueC isDna isRna nc oc b : ℝ) ≤
        (lddtDen trueC isDna isRna nc oc b : ℝ) := by
      exact_mod_cast le_max_left _ 1
    constructor
    · exact div_nonneg hsumnn (le_of_lt hdpos)
    · unfold lddtBatch
      rw [div_le_one hdpos]
      exact le_trans hsumle hcle
  have hsum0 : 0 ≤ ∑ b, lddtBatch pred trueC isDna isRna nc oc b :=
    Finset.sum_nonneg fun b _ => (hbatch b).1
  have hsumB : (∑ b, lddtBatch pred trueC isDna isRna nc oc b) ≤ (B : ℝ) := by
    calc (∑ b, lddtBatch pred trueC isDna isRna nc oc b) ≤ ∑ _b : Fin B, (1 : ℝ) :=
        Finset.sum_le_sum fun b _ => (hbatch b).2
      _ = B := by simp
  have hBpos : (0 : ℝ) < B := by exact_mod_cast hB
  unfold SmoothLDDTLoss_forward
  constructor
  · have hm : (∑ b, lddtBatch pred trueC isDna isRna nc oc b) / B ≤ 1 := by
      rw [div_le_one hBpos]
      exact hsumB
    linarith
  · have hm : 0 ≤ (∑ b, lddtBatch pred trueC isDna isRna nc oc b) / B :=
      div_nonneg hsum0 (le_of_lt hBpos)
    linarith

/-- Witness for C9 at the concrete two-atom example. -/
theorem SmoothLDDTLoss_den_pos_and_bounded_witness :
    0 < 1 ∧
    ((∀ b : Fin 1, 0 < lddtDen exampleCoords exampleDnaMask exampleDnaMask 30 15 b) ∧
      0 ≤ SmoothLDDTLoss_forward exampleCoords exampleCoords exampleDnaMask exampleDnaMask 30 15 ∧
      SmoothLDDTLoss_forward exampleCoords exampleCoords exampleDnaMask exampleDnaMask 30 15 ≤ 1) :=
  ⟨Nat.zero_lt_one,
    SmoothLDDTLoss_den_pos_and_bounded exampleCoords exampleCoords exampleDnaMask exampleDnaMask
      30 15 Nat.zero_lt_one⟩

/-! ### C6 and C7: frame algebra -/

theorem unitV_eq_of_norm (v : V3) (r : ℝ) (h : normV v = r) :
    unitV v = fun k => v k / r := by
  funext k
  simp [unitV, h]

theorem sqrt2_mul_self : Real.sqrt 2 * Real.sqrt 2 = 2 :=
  Real.mul_self_sqrt (by norm_num)

theorem fw1_orig : frameW1 ![1,0,0] ![0,0,0] = ![1,0,0] := by
  have hs : subV ![(1:ℝ),0,0] ![0,0,0] = ![1,0,0] := by
    funext k; fin_cases k <;> simp [subV]
  have hn : normV ![(1:ℝ),0,0] = 1 := by
    unfold normV dotV; rw [Fin.sum_univ_three]; norm_num
  unfold frameW1
  rw [hs, unitV_eq_of_norm _ _ hn]
  funext k; fin_cases k <;> norm_num

theorem fw2_orig : frameW2 ![0,0,0] ![0,1,0] = ![0,1,0] := by
  have hs : subV ![(0:ℝ),1,0] ![0,0,0] = ![0,1,0] := by
    funext k; fin_cases k <;> simp [subV]
  have hn : normV ![(0:ℝ),1,0] = 1 := by
    unfold normV dotV; rw [Fin.sum_univ_three]; norm_num
  unfold frameW2
  rw [hs, unitV_eq_of_norm _ _ hn]
  funext k; fin_cases k <;> norm_num

theorem fe1_orig : frameE1 ![1,0,0] ![0,0,0] ![0,1,0] =
    fun k => (![1,1,0] : V3) k / Real.sqrt 2 := by
  unfold frameE1
  rw [fw1_orig, fw2_orig]
  have hsum : (fun k => (![(1:ℝ),0,0] : V3) k + (![(0:ℝ),1,0] : V3) k) = ![(1:ℝ),1,0] := by
    funext k; fin_cases k <;> norm_num
  rw [hsum]
  have hn : normV ![(1:ℝ),1,0] = Real.sqrt 2 := by
    unfold normV dotV; rw [Fin.sum_univ_three]; norm_num
  exact unitV_eq_of_norm _ _ hn

theorem fe2_orig : frameE2 ![1,0,0] ![0,0,0] ![0,1,0] =
    fun k => (![-1,1,0] : V3) k / Real.sqrt 2 := by
  unfold frameE2
  rw [fw1_orig, fw2_orig]
  have hsum : (fun k => (![(0:ℝ),1,0] : V3) k - (![(1:ℝ),0,0] : V3) k) = ![(-1:ℝ),1,0] := by
    funext k; fin_cases k <;> norm_num
  rw [hsum]
  have hn : normV ![(-1:ℝ),1,0] = Real.sqrt 2 := by
    unfold normV dotV; rw [Fin.sum_univ_three]; norm_num
  exact unitV_eq_of_norm _ _ hn

theorem fe3_orig : frameE3 ![1,0,0] ![0,0,0] ![0,1,0] = ![-(1/2), 1/2, 0] := by
  funext k
  unfold frameE3
  rw [fe1_orig, fe2_orig]
  have hne : Real.sqrt 2 ≠ 0 := by positivity
  fin_cases k <;>
    simp only [Matrix.cons_val_zero, Matrix.cons_val_one, Matrix.head_cons,
      Matrix.cons_val_two, Matrix.tail_cons] <;>
    rw [div_mul_div_comm, sqrt2_mul_self] <;> norm_num

theorem cross_orig : crossV (frameE1 ![1,0,0] ![0,0,0] ![0,1,0])
    (frameE2 ![1,0,0] ![0,0,0] ![0,1,0]) = ![0,0,1] := by
  rw [fe1_orig, fe2_orig]
  have hne : Real.sqrt 2 ≠ 0 := by positivity
  funext k
  unfold crossV
  fin_cases k <;>
    simp only [Matrix.cons_val_zero, Matrix.cons_val_one, Matrix.head_cons,
      Matrix.cons_val_two, Matrix.tail_cons] <;>
    field_simp

theorem dot_e2_e3_orig : dotV (frameE2 ![1,0,0] ![0,0,0] ![0,1,0])
    (frameE3 ![1,0,0] ![0,0,0] ![0,1,0]) ≠ 0 := by
  rw [fe2_orig, fe3_orig]
  have hpos : (0:ℝ) < Real.sqrt 2 := by positivity
  have hval : dotV (fun k => (![-1,1,0] : V3) k / Real.sqrt 2) ![-(1/2), 1/2, 0]
      = 1 / Real.sqrt 2 := by
    unfold dotV
    rw [Fin.sum_univ_three]
    simp only [Matrix.cons_val_zero, Matrix.cons_val_one, Matrix.head_cons,
      Matrix.cons_val_two, Matrix.tail_cons]
    field_simp
    ring
  rw [hval]
  positivity

/-- CLAIM C6 (code bug): at the pairwise-distinct non-degenerate frame
`a = (1,0,0)`, `b = (0,0,0)`, `c = (0,1,0)`, the third basis vector computed
by `expressCoordinatesInFrame` is the elementwise product `(-1/2, 1/2, 0)` of
`e1` and `e2`, the cross product the spec prescribes is `(0,0,1)`, the
computed `e3` is not orthogonal to `e2`, and it differs from the cross
product — so the function does not build the claimed orthonormal basis. -/
theorem expressCoordinatesInFrame_basis_counterexample :
    frameE3 ![1,0,0] ![0,0,0] ![0,1,0] = ![-(1/2), 1/2, 0] ∧
    crossV (frameE1 ![1,0,0] ![0,0,0] ![0,1,0]) (frameE2 ![1,0,0] ![0,0,0] ![0,1,0])
      = ![0,0,1] ∧
    dotV (frameE2 ![1,0,0] ![0,0,0] ![0,1,0]) (frameE3 ![1,0,0] ![0,0,0] ![0,1,0]) ≠ 0 ∧
    frameE3 ![1,0,0] ![0,0,0] ![0,1,0] ≠
      crossV (frameE1 ![1,0,0] ![0,0,0] ![0,1,0]) (frameE2 ![1,0,0] ![0,0,0] ![0,1,0]) := by
  refine ⟨fe3_orig, cross_orig, dot_e2_e3_orig, ?_⟩
  rw [fe3_orig, cross_orig]
  intro h
  have h2 := congrFun h 2
  simp only [Matrix.cons_val_two, Matrix.tail_cons, Matrix.head_cons] at h2
  norm_num at h2

theorem express2_orig : expressCoordinatesInFrame ![1,0,0] ![1,0,0] ![0,0,0] ![0,1,0] 2
    = -(1/2) := by
  have h : expressCoordinatesInFrame ![1,0,0] ![1,0,0] ![0,0,0] ![0,1,0] 2
      = dotV (subV ![1,0,0] ![0,0,0]) (frameE3 ![1,0,0] ![0,0,0] ![0,1,0]) := rfl
  rw [h, fe3_orig]
  have hs : subV ![(1:ℝ),0,0] ![0,0,0] = ![1,0,0] := by
    funext k; fin_cases k <;> simp [subV]
  rw [hs]
  unfold dotV
  rw [Fin.sum_univ_three]
  norm_num

theorem fw1_rot : frameW1 ![3/5,4/5,0] ![0,0,0] = ![3/5,4/5,0] := by
  have hs : subV ![(3:ℝ)/5,4/5,0] ![0,0,0] = ![3/5,4/5,0] := by
    funext k; fin_cases k <;> simp [subV]
  have hn : normV ![(3:ℝ)/5,4/5,0] = 1 := by
    unfold normV dotV; rw [Fin.sum_univ_three]; norm_num
  unfold frameW1
  rw [hs, unitV_eq_of_norm _ _ hn]
  funext k; fin_cases k <;> norm_num

theorem fw2_rot : frameW2 ![0,0,0] ![-(4/5),3/5,0] = ![-(4/5),3/5,0] := by
  have hs : subV ![-((4:ℝ)/5),3/5,0] ![0,0,0] = ![-(4/5),3/5,0] := by
    funext k; fin_cases k <;> simp [subV]
  have hn : normV ![-((4:ℝ)/5),3/5,0] = 1 := by
    unfold normV dotV; rw [Fin.sum_univ_three]; norm_num
  unfold frameW2
  rw [hs, unitV_eq_of_norm _ _ hn]
  funext k; fin_cases k <;> norm_num

theorem fe1_rot : frameE1 ![3/5,4/5,0] ![0,0,0] ![-(4/5),3/5,0] =
    fun k => (![-(1/5), 7/5, 0] : V3) k / Real.sqrt 2 := by
  unfold frameE1
  rw [fw1_rot, fw2_rot]
  have hsum : (fun k => (![(3:ℝ)/5,4/5,0] : V3) k + (![-((4:ℝ)/5),3/5,0] : V3) k)
      = ![-((1:ℝ)/5), 7/5, 0] := by
    funext k; fin_cases k <;> norm_num
  rw [hsum]
  have hn : normV ![-((1:ℝ)/5), 7/5, 0] = Real.sqrt 2 := by
    unfold normV dotV; rw [Fin.sum_univ_three]; norm_num
  exact unitV_eq_of_norm _ _ hn

theorem fe2_rot : frameE2 ![3/5,4/5,0] ![0,0,0] ![-(4/5),3/5,0] =
    fun k => (![-(7/5), -(1/5), 0] : V3) k / Real.sqrt 2 := by
  unfold frameE2
  rw [fw1_rot, fw2_rot]
  have hsum : (fun k => (![-((4:ℝ)/5),3/5,0] : V3) k - (![(3:ℝ)/5,4/5,0] : V3) k)
      = ![-((7:ℝ)/5), -(1/5), 0] := by
    funext k; fin_cases k <;> norm_num
  rw [hsum]
  have hn : normV ![-((7:ℝ)/5), -(1/5), 0] = Real.sqrt 2 := by
    unfold normV dotV; rw [Fin.sum_univ_three]; norm_num
  exact unitV_eq_of_norm _ _ hn

theorem fe3_rot : frameE3 ![3/5,4/5,0] ![0,0,0] ![-(4/5),3/5,0] = ![7/50, -(7/50), 0] := by
  funext k
  unfold frameE3
  rw [fe1_rot, fe2_rot]
  have hne : Real.sqrt 2 ≠ 0 := by positivity
  fin_cases k <;>
    simp only [Matrix.cons_val_zero, Matrix.cons_val_one, Matrix.head_cons,
      Matrix.cons_val_two, Matrix.tail_cons] <;>
    rw [div_mul_div_comm, sqrt2_mul_self] <;> norm_num

theorem express2_rot :
    expressCoordinatesInFrame ![3/5,4/5,0] ![3/5,4/5,0] ![0,0,0] ![-(4/5),3/5,0] 2
      = -(7/250) := by
  have h : expressCoordinatesInFrame ![3/5,4/5,0] ![3/5,4/5,0] ![0,0,0] ![-(4/5),3/5,0] 2
      = dotV (subV ![3/5,4/5,0] ![0,0,0])
          (frameE3 ![3/5,4/5,0] ![0,0,0] ![-(4/5),3/5,0]) := rfl
  rw [h, fe3_rot]
  have hs : subV ![(3:ℝ)/5,4/5,0] ![0,0,0] = ![3/5,4/5,0] := by
    funext k; fin_cases k <;> simp [subV]
  rw [hs]
  unfold dotV
  rw [Fin.sum_univ_three]
  norm_num

theorem RmatC7_det : RmatC7.det = 1 := by
  rw [RmatC7, Matrix.det_fin_three]
  norm_num

theorem RapplyC7_dot (u v : V3) : dotV (RapplyC7 u) (RapplyC7 v) = dotV u v := by
  unfold dotV RapplyC7 RmatC7
  simp [Matrix.mulVec, Matrix.dotProduct, Fin.sum_univ_three]
  ring

theorem RapplyC7_x : RapplyC7 ![1,0,0] = ![3/5,4/5,0] := by
  funext k
  unfold RapplyC7 RmatC7
  fin_cases k <;>
    simp [Matrix.mulVec, Matrix.dotProduct, Fin.sum_univ_three]

theorem RapplyC7_b : RapplyC7 ![0,0,0] = ![0,0,0] := by
  funext k
  unfold RapplyC7 RmatC7
  fin_cases k <;>
    simp [Matrix.mulVec, Matrix.dotProduct, Fin.sum_univ_three]

theorem RapplyC7_c : RapplyC7 ![0,1,0] = ![-(4/5),3/5,0] := by
  funext k
  unfold RapplyC7 RmatC7
  fin_cases k <;>
    simp [Matrix.mulVec, Matrix.dotProduct, Fin.sum_univ_three]

/-- CLAIM C7 (code bug): `computeAlignmentError` is not invariant under a
proper rigid motion of the predicted side together with its frame.  `RmatC7`
is a proper rotation (determinant `1`, inner-product preserving), yet with
the frame `a = (1,0,0)`, `b = (0,0,0)`, `c = (0,1,0)`, the point
`x = (1,0,0)`, true data equal to the untransformed data, translation `0` and
the default `eps = 1e-8`, transforming the predicted point and its frame by
`RmatC7` changes the returned error vector (its third component moves from
`sqrt(1e-8)` to `sqrt((59/125)^2 + 1e-8)`), because the elementwise `e3` does
not rotate with the frame the way a cross product would. -/
theorem computeAlignmentError_not_invariant :
    RmatC7.det = 1 ∧
    (∀ u v : V3, dotV (RapplyC7 u) (RapplyC7 v) = dotV u v) ∧
    computeAlignmentError (RapplyC7 ![1,0,0]) ![1,0,0]
        (RapplyC7 ![1,0,0]) (RapplyC7 ![0,0,0]) (RapplyC7 ![0,1,0])
        ![1,0,0] ![0,0,0] ![0,1,0] (1e-8) ≠
      computeAlignmentError ![1,0,0] ![1,0,0] ![1,0,0] ![0,0,0] ![0,1,0]
        ![1,0,0] ![0,0,0] ![0,1,0] (1e-8) := by
  refine ⟨RmatC7_det, RapplyC7_dot, ?_⟩
  rw [RapplyC7_x, RapplyC7_b, RapplyC7_c]
  intro h
  have h2 := congrFun h 2
  unfold computeAlignmentError at h2
  rw [express2_rot, express2_orig] at h2
  rw [Real.sqrt_inj (by positivity) (by positivity)] at h2
  norm_num at h2

/-! ### C10: `AttentionPairBias.forward` reads the pairwise tensor and
preserves the primary shape -/

/-- CLAIM C10: for every call to `AttentionPairBias.forward`, the pairwise
representation after the call equals the tensor passed in (it is only read,
through out-of-place operations, to derive the additive attention bias), and
the returned output has the same shape as the primary (single) signal. -/
theorem AttentionPairBias_forward_frame (heads dk dv dimPair : ℕ)
    (Wq Wk Wv Wo : ℕ → ℕ → ℕ → ℝ) (gamma beta : ℕ → ℝ) (Wb : ℕ → ℕ → ℝ)
    (singleRepr : Tensor2) (pairwiseRepr : Tensor3) (attnBias : Option (ℕ → ℕ → ℝ)) :
    (AttentionPairBias_forward heads dk dv dimPair Wq Wk Wv Wo gamma beta Wb
        singleRepr pairwiseRepr attnBias).2 = pairwiseRepr ∧
    (AttentionPairBias_forward heads dk dv dimPair Wq Wk Wv Wo gamma beta Wb
        singleRepr pairwiseRepr attnBias).1.rows = singleRepr.rows ∧
    (AttentionPairBias_forward heads dk dv dimPair Wq Wk Wv Wo gamma beta Wb
        singleRepr pairwiseRepr attnBias).1.cols = singleRepr.cols :=
  ⟨rfl, rfl, rfl⟩
